import Mathlib

/-!
Shallow embedding of the marketplace messaging store
(`marketplace.py`, class `MarketplaceManager`).

Modelling choices:
* Python dicts (which preserve insertion order and have unique keys) are
  association lists `List (String × α)`; writing `d[k] = v` is `dinsert`
  (update in place when the key exists, append otherwise) and in-place
  mutation of the value at a present key is `dmodify`.
* `str(uuid4())` and `time.time()` are side effects of the environment, so
  the freshly generated id and the current timestamp are explicit
  parameters of the operations; reachability steps assume generated ids
  are fresh, as a collision-resistant random generator provides.
  Timestamps are abstract numbers (`Nat`).
* The JSON file is modelled as an optional JSON value (`none` when the
  file does not exist); `json.dump`/`json.load` are the identity on the
  tree, and the typed view of the data is recovered by a decoder.
* The listing-creation payload arrives from a web form, so its four
  fields are optional strings; Python truthiness on such a field
  (`not all [...]`) is "missing or empty string".
-/

namespace Marketplace

/-- A message inside a conversation, as stored in the JSON data. -/
structure Message where
  sender : String
  content : String
  timestamp : Nat
  read : Bool
deriving DecidableEq, Repr

/-- A marketplace listing, as stored under `data["listings"]`. -/
structure Listing where
  id : String
  name : String
  description : String
  price : String
  category : String
  owner : String
deriving DecidableEq, Repr

/-- A conversation, as stored under `data["conversations"]`.
`item_info` models the extra key written by `get_conversation_api`:
`none` when the key is absent, `some none` when it holds JSON null,
`some (some l)` when it holds a listing record. -/
structure Conversation where
  id : String
  item_id : String
  participants : List String
  messages : List Message
  item_info : Option (Option Listing)
deriving DecidableEq, Repr

/-- The in-memory data: the two ordered dictionaries of the JSON file. -/
structure MarketData where
  listings : List (String × Listing)
  conversations : List (String × Conversation)
deriving DecidableEq, Repr

/-- Dictionary write `d[k] = v`: replace the value when the key is
present, append at the end otherwise (Python dict semantics). -/
def dinsert (l : List (String × α)) (k : String) (v : α) : List (String × α) :=
  if (l.lookup k).isSome then
    l.map (fun p => if p.1 = k then (k, v) else p)
  else
    l ++ [(k, v)]

/-- In-place mutation of the value stored at key `k`. -/
def dmodify (l : List (String × α)) (k : String) (f : α → α) : List (String × α) :=
  l.map (fun p => if p.1 = k then (p.1, f p.2) else p)

/-- JSON values, the codomain of `json.dump`. -/
inductive Json where
  | null : Json
  | bool : Bool → Json
  | num : Nat → Json
  | str : String → Json
  | arr : List Json → Json
  | obj : List (String × Json) → Json
deriving Repr

/-- Whole manager state: the in-memory `self.data` and the JSON file
(`none` when the file has not been written yet). -/
structure MStore where
  data : MarketData
  file : Option Json

/-- The payload of a listing-creation request; each field is absent or a
string from the form. -/
structure ItemData where
  name : Option String
  description : Option String
  price : Option String
  category : Option String
deriving DecidableEq, Repr

/-- Python truthiness of an optional string: false exactly when the field
is missing or the empty string. -/
def truthy : Option String → Bool
  | none => false
  | some s => !(s == "")

/-- JSON encoding of a message (`json.dump` of the message dict). -/
def Message.toJson (m : Message) : Json :=
  .obj [("sender", .str m.sender), ("content", .str m.content),
        ("timestamp", .num m.timestamp), ("read", .bool m.read)]

/-- JSON encoding of a listing. -/
def Listing.toJson (l : Listing) : Json :=
  .obj [("id", .str l.id), ("name", .str l.name),
        ("description", .str l.description), ("price", .str l.price),
        ("category", .str l.category), ("owner", .str l.owner)]

/-- JSON encoding of a conversation; the `item_info` key is only present
when `get_conversation_api` has written it, and holds null when the
listing had been deleted. -/
def Conversation.toJson (c : Conversation) : Json :=
  .obj ([("id", .str c.id), ("item_id", .str c.item_id),
         ("participants", .arr (c.participants.map Json.str)),
         ("messages", .arr (c.messages.map Message.toJson))] ++
        (match c.item_info with
         | none => []
         | some none => [("item_info", Json.null)]
         | some (some l) => [("item_info", l.toJson)]))

/-- JSON encoding of the whole data file, as `_save_data` writes it. -/
def MarketData.toJson (d : MarketData) : Json :=
  .obj [("listings", .obj (d.listings.map (fun p => (p.1, p.2.toJson)))),
        ("conversations", .obj (d.conversations.map (fun p => (p.1, p.2.toJson))))]

/-- Typed reading of a JSON string. -/
def Json.getStr : Json → Option String
  | .str s => some s
  | _ => none

/-- Typed view of a message read back from the file. -/
def Message.fromJson : Json → Option Message
  | .obj [("sender", .str s), ("content", .str c),
          ("timestamp", .num t), ("read", .bool r)] =>
      some ⟨s, c, t, r⟩
  | _ => none

/-- Typed view of a listing read back from the file. -/
def Listing.fromJson : Json → Option Listing
  | .obj [("id", .str i), ("name", .str n), ("description", .str d),
          ("price", .str p), ("category", .str c), ("owner", .str o)] =>
      some ⟨i, n, d, p, c, o⟩
  | _ => none

/-- Decoding every element of a JSON array. -/
def decodeList {α : Type} (dec : Json → Option α) : List Json → Option (List α)
  | [] => some []
  | j :: js => do
      let a ← dec j
      let as ← decodeList dec js
      some (a :: as)

/-- Typed view of a conversation read back from the file. -/
def Conversation.fromJson : Json → Option Conversation
  | .obj (("id", .str i) :: ("item_id", .str ii) ::
          ("participants", .arr ps) :: ("messages", .arr ms) :: rest) => do
      let parts ← decodeList Json.getStr ps
      let msgs ← decodeList Message.fromJson ms
      let info ← match rest with
        | [] => some none
        | [("item_info", Json.null)] => some (some none)
        | [("item_info", j)] => (Listing.fromJson j).map (fun l => some (some l))
        | _ => none
      some ⟨i, ii, parts, msgs, info⟩
  | _ => none

/-- Decoding every entry of a JSON object into a dictionary. -/
def decodePairs {α : Type} (dec : Json → Option α) :
    List (String × Json) → Option (List (String × α))
  | [] => some []
  | p :: ps => do
      let v ← dec p.2
      let rest ← decodePairs dec ps
      some ((p.1, v) :: rest)

/-- Decoding one dictionary of the data file. -/
def decodeDict {α : Type} (dec : Json → Option α) : Json → Option (List (String × α))
  | .obj kvs => decodePairs dec kvs
  | _ => none

/-- Typed view of the whole data file, as `_load_data` reads it back. -/
def MarketData.fromJson : Json → Option MarketData
  | .obj [("listings", jl), ("conversations", jc)] => do
      let ls ← decodeDict Listing.fromJson jl
      let cs ← decodeDict Conversation.fromJson jc
      some ⟨ls, cs⟩
  | _ => none

/-- The `_load_data` method: an absent file yields the default structure,
a present file is parsed; a file that does not decode falls back to the
default (the corrupted-file fallback). -/
def load_data : Option Json → MarketData
  | none => ⟨[], []⟩
  | some j => (MarketData.fromJson j).getD ⟨[], []⟩

/-- Result of `create_listing_api`: the success flag, the message, and the
created listing when present. -/
structure CreateResult where
  success : Bool
  message : String
  listing : Option Listing
deriving DecidableEq, Repr

/-- Result of `send_message_api`. -/
structure SendResult where
  success : Bool
  message : String
deriving DecidableEq, Repr

/-- Result of `get_conversation_api`: the error message or the returned
conversation. -/
structure ConvResult where
  success : Bool
  message : String
  conversation : Option Conversation
deriving DecidableEq, Repr

/-- One inbox entry built by `get_inbox_api`. The original crashes on a
conversation with no other participant or no messages, which cannot be
stored by the API; those partial reads are modelled with `Option`. -/
structure Summary where
  convo_id : String
  item_name : String
  other_participant : Option String
  last_message : Option Message
  unread_count : Nat
deriving DecidableEq, Repr

/-- The `create_listing_api` method. The generated `str(uuid4())` is the
explicit argument `listing_id`. -/
def create_listing_api (s : MStore) (item_data : ItemData) (owner : String)
    (listing_id : String) : MStore × CreateResult :=
  if !(truthy item_data.name && truthy item_data.description &&
       truthy item_data.price && truthy item_data.category) then
    (s, ⟨false, "All fields are required.", none⟩)
  else
    let l : Listing :=
      ⟨listing_id, item_data.name.getD "", item_data.description.getD "",
       item_data.price.getD "", item_data.category.getD "", owner⟩
    let data : MarketData := { s.data with listings := dinsert s.data.listings listing_id l }
    ({ data := data, file := some data.toJson },
     ⟨true, "Listing created successfully!", some l⟩)

/-- The `send_message_api` method. The generated conversation id and the
current time are the explicit arguments `new_convo_id` and `now`. -/
def send_message_api (s : MStore) (item_id sender content : String)
    (new_convo_id : String) (now : Nat) : MStore × SendResult :=
  match s.data.listings.lookup item_id with
  | none => (s, ⟨false, "Item not found."⟩)
  | some item =>
    let recipient := item.owner
    if sender == recipient then
      (s, ⟨false, "You cannot message yourself."⟩)
    else
      let found := s.data.conversations.find? (fun p =>
        p.2.item_id == item_id && p.2.participants.contains sender &&
        p.2.participants.contains recipient)
      let message : Message := ⟨sender, content, now, false⟩
      let conversations :=
        match found with
        | some (cid, _) =>
            dmodify s.data.conversations cid
              (fun c => { c with messages := c.messages ++ [message] })
        | none =>
            dinsert s.data.conversations new_convo_id
              ⟨new_convo_id, item_id, [sender, recipient], [message], none⟩
      let data : MarketData := { s.data with conversations := conversations }
      ({ data := data, file := some data.toJson }, ⟨true, "Message sent successfully."⟩)

/-- Unread count as computed in `get_inbox_api`: messages not yet read
and not sent by the viewer. -/
def unreadCount (username : String) (msgs : List Message) : Nat :=
  msgs.countP (fun m => !m.read && !(m.sender == username))

/-- Sort key of an inbox entry: the timestamp of the last message. -/
def summaryKey (x : Summary) : Nat :=
  (x.last_message.map Message.timestamp).getD 0

/-- Python `list.sort(key=..., reverse=True)` is a stable descending
sort; `insertionSort` with this relation is stable and descending. -/
def sortByRecent (l : List Summary) : List Summary :=
  l.insertionSort (fun a b => summaryKey b ≤ summaryKey a)

/-- The inbox entry built for one conversation the user participates in. -/
def mkSummary (s : MStore) (username : String) (p : String × Conversation) : Summary :=
  { convo_id := p.1
    item_name :=
      match s.data.listings.lookup p.2.item_id with
      | some i => i.name
      | none => "Deleted Item"
    other_participant := p.2.participants.find? (fun q => !(q == username))
    last_message := p.2.messages.getLast?
    unread_count := unreadCount username p.2.messages }

/-- The `get_inbox_api` method (read-only). -/
def get_inbox_api (s : MStore) (username : String) : List Summary :=
  sortByRecent
    ((s.data.conversations.filter (fun p => p.2.participants.contains username)).map
      (mkSummary s username))

/-- The read-marking loop of `get_conversation_api`: every message whose
sender differs from the viewer is marked read. -/
def markRead (username : String) (msgs : List Message) : List Message :=
  msgs.map (fun m => if !(m.sender == username) then { m with read := true } else m)

/-- The `get_conversation_api` method. Messages from other senders are
marked read, the store is saved, and only then is the resolved listing
written into the stored conversation under `item_info`. -/
def get_conversation_api (s : MStore) (convo_id username : String) :
    MStore × ConvResult :=
  match s.data.conversations.lookup convo_id with
  | none => (s, ⟨false, "Conversation not found.", none⟩)
  | some convo =>
    if !(convo.participants.contains username) then
      (s, ⟨false, "Unauthorized access.", none⟩)
    else
      let convo1 := { convo with messages := markRead username convo.messages }
      let data1 : MarketData := { s.data with
        conversations := dmodify s.data.conversations convo_id (fun _ => convo1) }
      let file := some data1.toJson
      let item := data1.listings.lookup convo1.item_id
      let convo2 := { convo1 with item_info := some item }
      let data2 : MarketData := { data1 with
        conversations := dmodify data1.conversations convo_id (fun _ => convo2) }
      ({ data := data2, file := file }, ⟨true, "", some convo2⟩)

/-- One API request, with the environment-supplied fresh id and clock
reading recorded as data. -/
inductive Act where
  | create : ItemData → String → String → Act
  | send : String → String → String → String → Nat → Act
  | inbox : String → Act
  | getconv : String → String → Act

/-- The state transformation of one API request. -/
def Act.apply : Act → MStore → MStore
  | .create d o lid, s => (create_listing_api s d o lid).1
  | .send i se c nid now, s => (send_message_api s i se c nid now).1
  | .inbox _, s => s
  | .getconv cid u, s => (get_conversation_api s cid u).1

/-- The id produced by `str(uuid4())` does not collide with a stored id;
this is the behaviour of a collision-resistant random generator. -/
def Act.freshOK : Act → MStore → Prop
  | .create _ _ lid, s => s.data.listings.lookup lid = none
  | .send _ _ _ nid _, s => s.data.conversations.lookup nid = none
  | .inbox _, _ => True
  | .getconv _ _, _ => True

/-- The state of a fresh manager with no data file: the default structure
of `_load_data`. -/
def emptyStore : MStore := ⟨⟨[], []⟩, none⟩

/-- States reachable from the empty store by API calls. -/
inductive Reachable : MStore → Prop
  | init : Reachable emptyStore
  | step {s : MStore} (a : Act) : Reachable s → a.freshOK s → Reachable (a.apply s)

/-- At most one conversation per item and unordered participant pair:
two stored conversations with the same item and the same participant set
are stored under the same key. -/
def Dedup (d : MarketData) : Prop :=
  ∀ p ∈ d.conversations, ∀ q ∈ d.conversations,
    p.2.item_id = q.2.item_id →
    (∀ x, x ∈ p.2.participants ↔ x ∈ q.2.participants) →
    p.1 = q.1

/-- The structural well-formedness maintained by the API: conversation
keys are unique and the deduplication invariant holds. -/
def WF (d : MarketData) : Prop :=
  (d.conversations.map Prod.fst).Nodup ∧ Dedup d

/-- The spec wording for a rejected listing field: missing or empty. -/
def missingOrEmpty (o : Option String) : Prop :=
  o = none ∨ o = some ""

instance (o : Option String) : Decidable (missingOrEmpty o) :=
  inferInstanceAs (Decidable (o = none ∨ o = some ""))

/-- The search loop of `send_message_api` as a predicate. -/
def convoMatch (item_id sender recipient : String) (p : String × Conversation) : Bool :=
  p.2.item_id == item_id && p.2.participants.contains sender &&
  p.2.participants.contains recipient

/-! Concrete stores used to instantiate the theorems. -/

/-- A complete listing-creation payload. -/
def itemChair : ItemData := ⟨some "Chair", some "Wood chair", some "10", some "furniture"⟩

/-- A second complete listing-creation payload. -/
def itemLamp : ItemData := ⟨some "Lamp", some "Desk lamp", some "5", some "lighting"⟩

/-- Store after alice lists the chair. -/
def demo1 : MStore := (create_listing_api emptyStore itemChair "alice" "L1").1

/-- Store after carol additionally lists the lamp. -/
def demo2 : MStore := (create_listing_api demo1 itemLamp "carol" "L2").1

/-- Store after bob messages alice about the chair at time 1. -/
def demo3 : MStore := (send_message_api demo2 "L1" "bob" "interested" "C1" 1).1

/-- Store after bob additionally messages carol about the lamp at time 5. -/
def demo4 : MStore := (send_message_api demo3 "L2" "bob" "lamp please" "C2" 5).1

/-- Store after alice opens her conversation with bob. -/
def demo5 : MStore := (get_conversation_api demo4 "C1" "alice").1

/-- The message bob sent about the chair, as stored before alice reads it. -/
def msgB : Message := ⟨"bob", "interested", 1, false⟩

/-- The same message after alice has opened the conversation. -/
def msgA : Message := ⟨"bob", "interested", 1, true⟩

/-- The chair listing as stored. -/
def demoChair : Listing := ⟨"L1", "Chair", "Wood chair", "10", "furniture", "alice"⟩

/-- The conversation about the chair before alice reads it. -/
def demoConvoC1 : Conversation := ⟨"C1", "L1", ["bob", "alice"], [msgB], none⟩

/-- The conversation about the chair after alice has read it. -/
def demoConvoC1read : Conversation :=
  ⟨"C1", "L1", ["bob", "alice"], [msgA], some (some demoChair)⟩

/-- Across one step, a message position not occupied before the step
holds an unread message after it: messages are created with read=false. -/
def NewUnread (old new : List (String × Conversation)) : Prop :=
  ∀ (cid : String) (c2 : Conversation), new.lookup cid = some c2 →
    ∀ (i : Nat) (m2 : Message), c2.messages[i]? = some m2 →
      (∀ c1 : Conversation, old.lookup cid = some c1 → c1.messages.length ≤ i) →
      m2.read = false

/-- Across one step, surviving message positions keep their sender,
content and timestamp, the read flag never reverts from true to false,
and a transition from unread to read has the cause `cause`. -/
def StepReads (old new : List (String × Conversation))
    (cause : String → Message → Prop) : Prop :=
  ∀ (cid : String) (c1 c2 : Conversation),
    old.lookup cid = some c1 → new.lookup cid = some c2 →
    ∀ (i : Nat) (m1 m2 : Message),
      c1.messages[i]? = some m1 → c2.messages[i]? = some m2 →
      m2.sender = m1.sender ∧ m2.content = m1.content ∧
      m2.timestamp = m1.timestamp ∧
      (m1.read = true → m2.read = true) ∧
      (m1.read = false → m2.read = true → cause cid m1)

/-! Dictionary lemmas. -/

theorem lookup_cons_eq {α : Type} (k k1 : String) (v1 : α) (l : List (String × α)) :
    ((k1, v1) :: l).lookup k = if k = k1 then some v1 else l.lookup k := by
  rw [List.lookup_cons]
  by_cases h : k = k1
  · simp [h]
  · simp [beq_eq_false_iff_ne.mpr h, h]

theorem lookup_eq_none_iff {α : Type} (l : List (String × α)) (k : String) :
    l.lookup k = none ↔ ∀ p ∈ l, p.1 ≠ k := by
  induction l with
  | nil => simp
  | cons a l ih =>
    obtain ⟨k1, v1⟩ := a
    rw [lookup_cons_eq]
    by_cases hk : k = k1
    · subst hk
      simp
    · rw [if_neg hk, ih]
      constructor
      · intro h
        intro p hp
        rcases List.mem_cons.mp hp with rfl | hp2
        · exact fun he => hk he.symm
        · exact h p hp2
      · intro h p hp
        exact h p (List.mem_cons_of_mem _ hp)

theorem lookup_eq_none_keys {α : Type} (l : List (String × α)) (k : String) :
    l.lookup k = none ↔ k ∉ l.map Prod.fst := by
  rw [lookup_eq_none_iff]
  simp only [List.mem_map]
  constructor
  · rintro h ⟨p, hp, rfl⟩
    exact h p hp rfl
  · intro h p hp he
    exact h ⟨p, hp, he⟩

theorem lookup_append {α : Type} (l m : List (String × α)) (k : String) :
    (l ++ m).lookup k = ((l.lookup k).rec (m.lookup k) (fun v => some v)) := by
  induction l with
  | nil => simp
  | cons a l ih =>
    obtain ⟨k1, v1⟩ := a
    rw [List.cons_append, lookup_cons_eq, lookup_cons_eq]
    by_cases hk : k = k1
    · simp [hk]
    · rw [if_neg hk, if_neg hk, ih]

theorem lookup_mapupd {α : Type} (l : List (String × α)) (k k' : String) (v : α) :
    (l.map (fun p => if p.1 = k then (k, v) else p)).lookup k' =
      if k' = k ∧ (l.lookup k).isSome then some v else l.lookup k' := by
  induction l with
  | nil => simp
  | cons a l ih =>
    obtain ⟨k1, v1⟩ := a
    simp only [List.map_cons]
    by_cases hk : k1 = k
    · subst hk
      rw [if_pos rfl, lookup_cons_eq, lookup_cons_eq, lookup_cons_eq]
      by_cases hk' : k' = k1
      · simp [hk']
      · rw [if_neg hk', if_neg hk', ih]
        simp [hk']
    · rw [if_neg (show ¬(k1 = k) from hk), lookup_cons_eq, lookup_cons_eq,
          lookup_cons_eq]
      by_cases hk' : k' = k1
      · subst hk'
        rw [if_pos rfl, if_neg (fun hc => hk hc.1), if_pos rfl]
      · rw [if_neg hk', ih, if_neg (show ¬k = k1 from fun he => hk he.symm),
            if_neg hk']

theorem lookup_dinsert_self {α : Type} (l : List (String × α)) (k : String) (v : α) :
    (dinsert l k v).lookup k = some v := by
  unfold dinsert
  by_cases h : (l.lookup k).isSome
  · rw [if_pos h, lookup_mapupd]
    simp [h]
  · rw [if_neg h, lookup_append, Option.not_isSome_iff_eq_none.mp h]
    simp [List.lookup_cons]

theorem lookup_dinsert_ne {α : Type} (l : List (String × α)) (k k' : String) (v : α)
    (h : k' ≠ k) : (dinsert l k v).lookup k' = l.lookup k' := by
  unfold dinsert
  by_cases hs : (l.lookup k).isSome
  · rw [if_pos hs, lookup_mapupd, if_neg (fun hc => h hc.1)]
  · rw [if_neg hs, lookup_append, List.lookup_cons, beq_eq_false_iff_ne.mpr h]
    cases hl : l.lookup k' <;> simp

theorem lookup_dmodify {α : Type} (l : List (String × α)) (k k' : String) (f : α → α) :
    (dmodify l k f).lookup k' =
      if k' = k then (l.lookup k).map f else l.lookup k' := by
  induction l with
  | nil => simp [dmodify]
  | cons a l ih =>
    obtain ⟨k1, v1⟩ := a
    unfold dmodify
    simp only [List.map_cons]
    unfold dmodify at ih
    by_cases hk : k1 = k
    · subst hk
      rw [if_pos rfl, lookup_cons_eq, lookup_cons_eq, lookup_cons_eq]
      by_cases hk' : k' = k1
      · simp [hk']
      · rw [if_neg hk', if_neg hk', if_neg hk', ih, if_neg hk']
    · rw [if_neg (show ¬(k1 = k) from hk), lookup_cons_eq, lookup_cons_eq,
          lookup_cons_eq]
      by_cases hk' : k' = k1
      · subst hk'
        rw [if_pos rfl, if_pos rfl]
        by_cases hkk : k' = k
        · exact absurd hkk hk
        · rw [if_neg hkk]
      · rw [if_neg hk', if_neg hk', ih]
        by_cases hkk : k' = k
        · subst hkk
          rw [if_pos rfl, if_pos rfl, if_neg (fun he => hk he.symm)]
        · rw [if_neg hkk, if_neg hkk]

theorem dmodify_map_fst {α : Type} (l : List (String × α)) (k : String) (f : α → α) :
    (dmodify l k f).map Prod.fst = l.map Prod.fst := by
  unfold dmodify
  rw [List.map_map]
  apply List.map_congr_left
  intro p _
  by_cases hk : p.1 = k <;> simp [Function.comp, hk]

theorem lookup_mem {α : Type} {l : List (String × α)} {k : String} {v : α}
    (h : l.lookup k = some v) : (k, v) ∈ l := by
  induction l with
  | nil => simp at h
  | cons a l ih =>
    obtain ⟨k1, v1⟩ := a
    rw [lookup_cons_eq] at h
    by_cases hk : k = k1
    · rw [if_pos hk] at h
      obtain rfl : v1 = v := by simpa using h
      exact hk ▸ List.mem_cons_self _ _
    · rw [if_neg hk] at h
      exact List.mem_cons_of_mem _ (ih h)

theorem mem_dmodify {α : Type} {l : List (String × α)} {k : String} {f : α → α} {p} :
    p ∈ dmodify l k f → ∃ q ∈ l, p = if q.1 = k then (q.1, f q.2) else q := by
  intro h
  obtain ⟨q, hq, rfl⟩ := List.mem_map.mp h
  exact ⟨q, hq, rfl⟩

theorem dmodify_comp {α : Type} (l : List (String × α)) (k : String) (f g : α → α) :
    dmodify (dmodify l k f) k g = dmodify l k (fun v => g (f v)) := by
  unfold dmodify
  rw [List.map_map]
  apply List.map_congr_left
  intro p _
  by_cases hk : p.1 = k <;> simp [Function.comp, hk]

theorem lookup_of_mem_nodup {α : Type} {l : List (String × α)}
    (hn : (l.map Prod.fst).Nodup) {k : String} {v : α} (h : (k, v) ∈ l) :
    l.lookup k = some v := by
  induction l with
  | nil => simp at h
  | cons a l ih =>
    obtain ⟨k1, v1⟩ := a
    rw [lookup_cons_eq]
    rcases List.mem_cons.mp h with he | hm
    · have h1 : k = k1 := congrArg Prod.fst he
      have h2 : v = v1 := congrArg Prod.snd he
      subst h1
      subst h2
      simp
    · have hn' : k1 ∉ l.map Prod.fst ∧ (l.map Prod.fst).Nodup :=
        List.nodup_cons.mp hn
      by_cases hk : k = k1
      · subst hk
        exact absurd (List.mem_map.mpr ⟨(k, v), hm, rfl⟩) hn'.1
      · rw [if_neg hk]
        exact ih hn'.2 hm

theorem entry_unique_of_nodup {α : Type} {l : List (String × α)}
    (hn : (l.map Prod.fst).Nodup) {p q : String × α}
    (hp : p ∈ l) (hq : q ∈ l) (h : p.1 = q.1) : p = q :=
  List.inj_on_of_nodup_map hn hp hq h

theorem dinsert_of_none {α : Type} {l : List (String × α)} {k : String} {v : α}
    (h : l.lookup k = none) : dinsert l k v = l ++ [(k, v)] := by
  unfold dinsert
  rw [h]
  rfl

theorem lookup_append_single_ne {α : Type} (l : List (String × α))
    (k k1 : String) (v1 : α) (h : k ≠ k1) :
    (l ++ [(k1, v1)]).lookup k = l.lookup k := by
  rw [lookup_append]
  cases hl : l.lookup k with
  | none => simp [lookup_cons_eq, h]
  | some v => rfl

theorem lookup_append_single_self {α : Type} (l : List (String × α))
    (k : String) (v : α) (h : l.lookup k = none) :
    (l ++ [(k, v)]).lookup k = some v := by
  rw [lookup_append, h]
  simp [lookup_cons_eq]

theorem same_message_facts {C : Prop} (m : Message) :
    m.sender = m.sender ∧ m.content = m.content ∧ m.timestamp = m.timestamp ∧
    (m.read = true → m.read = true) ∧ (m.read = false → m.read = true → C) :=
  ⟨rfl, rfl, rfl, id, fun hf ht => absurd ht (by rw [hf]; simp)⟩

theorem entry_unchanged_facts {C : Prop} (c1 c2 : Conversation) (he : c2 = c1)
    (i : Nat) (m1 m2 : Message) (hm1 : c1.messages[i]? = some m1)
    (hm2 : c2.messages[i]? = some m2) :
    m2.sender = m1.sender ∧ m2.content = m1.content ∧
    m2.timestamp = m1.timestamp ∧ (m1.read = true → m2.read = true) ∧
    (m1.read = false → m2.read = true → C) := by
  subst he
  rw [hm1] at hm2
  have hmm := Option.some.inj hm2
  rw [← hmm]
  exact same_message_facts m1

theorem newUnread_refl (l : List (String × Conversation)) : NewUnread l l := by
  intro cid c2 h2 i m2 hm2 hlen
  exact absurd hm2 (by rw [List.getElem?_eq_none (hlen c2 h2)]; simp)

theorem stepReads_refl (l : List (String × Conversation))
    (cause : String → Message → Prop) : StepReads l l cause := by
  intro cid c1 c2 h1 h2 i m1 m2 hm1 hm2
  obtain rfl : c1 = c2 := by rw [h1] at h2; exact Option.some.inj h2
  obtain rfl : m1 = m2 := by rw [hm1] at hm2; exact Option.some.inj hm2
  exact ⟨rfl, rfl, rfl, fun h => h, fun hf ht => absurd ht (by rw [hf]; simp)⟩

/-! Behaviour of the individual operations on each control path. -/

theorem markRead_idem (U : String) (msgs : List Message) :
    markRead U (markRead U msgs) = markRead U msgs := by
  unfold markRead
  rw [List.map_map]
  apply List.map_congr_left
  intro m _
  by_cases h : m.sender == U <;> simp [Function.comp, h]

theorem unreadCount_markRead (U : String) (msgs : List Message) :
    unreadCount U (markRead U msgs) = 0 := by
  unfold unreadCount markRead
  rw [List.countP_map, List.countP_eq_zero]
  intro m _
  by_cases h : m.sender == U <;> simp [Function.comp, h]

theorem markRead_preserves_meta (U : String) (msgs : List Message) :
    (markRead U msgs).map (fun m => (m.sender, m.content, m.timestamp)) =
      msgs.map (fun m => (m.sender, m.content, m.timestamp)) := by
  unfold markRead
  rw [List.map_map]
  apply List.map_congr_left
  intro m _
  by_cases h : m.sender == U <;> simp [Function.comp, h]

theorem markRead_getElem (U : String) (msgs : List Message) (i : Nat) (m : Message)
    (h : msgs[i]? = some m) :
    (markRead U msgs)[i]? = some (if m.sender ≠ U then { m with read := true } else m) := by
  unfold markRead
  rw [List.getElem?_map, h]
  by_cases hs : m.sender = U <;> simp [hs]

theorem truthy_eq_false_iff (o : Option String) :
    truthy o = false ↔ missingOrEmpty o := by
  unfold truthy missingOrEmpty
  cases o with
  | none => simp
  | some s => simp [String.ext_iff]

theorem create_fail_eq (s : MStore) (d : ItemData) (o lid : String)
    (h : (truthy d.name && truthy d.description && truthy d.price &&
          truthy d.category) = false) :
    create_listing_api s d o lid = (s, ⟨false, "All fields are required.", none⟩) := by
  unfold create_listing_api
  rw [if_pos (by simp [h])]

theorem create_success_eq (s : MStore) (d : ItemData) (o lid : String)
    (h : (truthy d.name && truthy d.description && truthy d.price &&
          truthy d.category) = true) :
    create_listing_api s d o lid =
      (⟨⟨dinsert s.data.listings lid
           ⟨lid, d.name.getD "", d.description.getD "", d.price.getD "",
            d.category.getD "", o⟩,
         s.data.conversations⟩,
        some (MarketData.toJson
          ⟨dinsert s.data.listings lid
             ⟨lid, d.name.getD "", d.description.getD "", d.price.getD "",
              d.category.getD "", o⟩,
           s.data.conversations⟩)⟩,
       ⟨true, "Listing created successfully!",
        some ⟨lid, d.name.getD "", d.description.getD "", d.price.getD "",
              d.category.getD "", o⟩⟩) := by
  unfold create_listing_api
  rw [if_neg (by simp [h])]

theorem send_notfound_eq (s : MStore) (item_id sender content nid : String) (now : Nat)
    (h : s.data.listings.lookup item_id = none) :
    send_message_api s item_id sender content nid now =
      (s, ⟨false, "Item not found."⟩) := by
  unfold send_message_api
  rw [h]

theorem send_self_eq (s : MStore) (item_id sender content nid : String) (now : Nat)
    (item : Listing) (h : s.data.listings.lookup item_id = some item)
    (hs : sender = item.owner) :
    send_message_api s item_id sender content nid now =
      (s, ⟨false, "You cannot message yourself."⟩) := by
  unfold send_message_api
  rw [h]
  simp only [hs, BEq.refl, if_true]

theorem send_found_eq (s : MStore) (item_id sender content nid : String) (now : Nat)
    (item : Listing) (h : s.data.listings.lookup item_id = some item)
    (hs : (sender == item.owner) = false) (cid : String) (c : Conversation)
    (hf : s.data.conversations.find? (convoMatch item_id sender item.owner) =
          some (cid, c)) :
    send_message_api s item_id sender content nid now =
      (⟨⟨s.data.listings,
         dmodify s.data.conversations cid
           (fun c0 => { c0 with messages := c0.messages ++ [⟨sender, content, now, false⟩] })⟩,
        some (MarketData.toJson
          ⟨s.data.listings,
           dmodify s.data.conversations cid
             (fun c0 => { c0 with messages := c0.messages ++ [⟨sender, content, now, false⟩] })⟩)⟩,
       ⟨true, "Message sent successfully."⟩) := by
  unfold send_message_api
  rw [h]
  simp only [hs, Bool.false_eq_true, if_false]
  rw [show (fun p : String × Conversation =>
        p.2.item_id == item_id && p.2.participants.contains sender &&
        p.2.participants.contains item.owner) = convoMatch item_id sender item.owner
      from rfl, hf]

theorem send_new_eq (s : MStore) (item_id sender content nid : String) (now : Nat)
    (item : Listing) (h : s.data.listings.lookup item_id = some item)
    (hs : (sender == item.owner) = false)
    (hf : s.data.conversations.find? (convoMatch item_id sender item.owner) = none) :
    send_message_api s item_id sender content nid now =
      (⟨⟨s.data.listings,
         dinsert s.data.conversations nid
           ⟨nid, item_id, [sender, item.owner], [⟨sender, content, now, false⟩], none⟩⟩,
        some (MarketData.toJson
          ⟨s.data.listings,
           dinsert s.data.conversations nid
             ⟨nid, item_id, [sender, item.owner], [⟨sender, content, now, false⟩], none⟩⟩)⟩,
       ⟨true, "Message sent successfully."⟩) := by
  unfold send_message_api
  rw [h]
  simp only [hs, Bool.false_eq_true, if_false]
  rw [show (fun p : String × Conversation =>
        p.2.item_id == item_id && p.2.participants.contains sender &&
        p.2.participants.contains item.owner) = convoMatch item_id sender item.owner
      from rfl, hf]

theorem getconv_notfound_eq (s : MStore) (cid U : String)
    (h : s.data.conversations.lookup cid = none) :
    get_conversation_api s cid U = (s, ⟨false, "Conversation not found.", none⟩) := by
  unfold get_conversation_api
  rw [h]

theorem getconv_unauth_eq (s : MStore) (cid U : String) (c : Conversation)
    (h : s.data.conversations.lookup cid = some c)
    (hU : c.participants.contains U = false) :
    get_conversation_api s cid U = (s, ⟨false, "Unauthorized access.", none⟩) := by
  unfold get_conversation_api
  rw [h]
  have hm : U ∉ c.participants := by simpa using hU
  simp [hU, hm]

theorem getconv_success_eq (s : MStore) (cid U : String) (c : Conversation)
    (h : s.data.conversations.lookup cid = some c)
    (hU : c.participants.contains U = true) :
    get_conversation_api s cid U =
      (⟨⟨s.data.listings,
         dmodify s.data.conversations cid
           (fun _ => { c with messages := markRead U c.messages,
                              item_info := some (s.data.listings.lookup c.item_id) })⟩,
        some (MarketData.toJson
          ⟨s.data.listings,
           dmodify s.data.conversations cid
             (fun _ => { c with messages := markRead U c.messages })⟩)⟩,
       ⟨true, "",
        some { c with messages := markRead U c.messages,
                      item_info := some (s.data.listings.lookup c.item_id) }⟩) := by
  unfold get_conversation_api
  rw [h]
  simp only [hU, Bool.not_true, Bool.false_eq_true, if_false]
  rw [dmodify_comp]

/-! Reachability of the concrete stores. -/

theorem reachable_demo1 : Reachable demo1 :=
  Reachable.step (.create itemChair "alice" "L1") Reachable.init rfl

theorem reachable_demo2 : Reachable demo2 :=
  Reachable.step (.create itemLamp "carol" "L2") reachable_demo1
    (show demo1.data.listings.lookup "L2" = none by decide)

theorem reachable_demo3 : Reachable demo3 :=
  Reachable.step (.send "L1" "bob" "interested" "C1" 1) reachable_demo2
    (show demo2.data.conversations.lookup "C1" = none by decide)

theorem reachable_demo4 : Reachable demo4 :=
  Reachable.step (.send "L2" "bob" "lamp please" "C2" 5) reachable_demo3
    (show demo3.data.conversations.lookup "C2" = none by decide)

theorem reachable_demo5 : Reachable demo5 :=
  Reachable.step (.getconv "C1" "alice") reachable_demo4 trivial

/-! The claims. -/

/-- C5: every operation that returns an error result (validation failure
on listing creation, item-not-found or self-message on send, or
conversation-not-found or unauthorized on conversation access) leaves
the whole store, in-memory data and persisted file alike, exactly as it
was; in particular a send whose sender is the listing owner fails with
the self-message error and changes nothing. -/
theorem error_leaves_store_unchanged (s : MStore) :
    (∀ (d : ItemData) (o lid : String),
        (create_listing_api s d o lid).2.success = false →
        (create_listing_api s d o lid).1 = s)
  ∧ (∀ (item_id sender content nid : String) (now : Nat),
        (send_message_api s item_id sender content nid now).2.success = false →
        (send_message_api s item_id sender content nid now).1 = s)
  ∧ (∀ cid u : String,
        (get_conversation_api s cid u).2.success = false →
        (get_conversation_api s cid u).1 = s)
  ∧ (∀ (item_id sender content nid : String) (now : Nat) (item : Listing),
        s.data.listings.lookup item_id = some item → sender = item.owner →
        (send_message_api s item_id sender content nid now).2 =
          ⟨false, "You cannot message yourself."⟩ ∧
        (send_message_api s item_id sender content nid now).1 = s) := by
  refine ⟨?_, ?_, ?_, ?_⟩
  · intro d o lid h
    cases hv : (truthy d.name && truthy d.description && truthy d.price &&
        truthy d.category) with
    | false => rw [create_fail_eq s d o lid hv]
    | true =>
      rw [create_success_eq s d o lid hv] at h
      simp at h
  · intro item_id sender content nid now h
    cases hl : s.data.listings.lookup item_id with
    | none => rw [send_notfound_eq s item_id sender content nid now hl]
    | some item =>
      cases hsr : (sender == item.owner) with
      | true =>
        rw [send_self_eq s item_id sender content nid now item hl
          (by simpa using hsr)]
      | false =>
        cases hf : s.data.conversations.find? (convoMatch item_id sender item.owner) with
        | none =>
          rw [send_new_eq s item_id sender content nid now item hl hsr hf] at h
          simp at h
        | some pc =>
          rw [send_found_eq s item_id sender content nid now item hl hsr
            pc.1 pc.2 (by rw [hf])] at h
          simp at h
  · intro cid u h
    cases hl : s.data.conversations.lookup cid with
    | none => rw [getconv_notfound_eq s cid u hl]
    | some c =>
      cases hU : c.participants.contains u with
      | false => rw [getconv_unauth_eq s cid u c hl hU]
      | true =>
        rw [getconv_success_eq s cid u c hl hU] at h
        simp at h
  · intro item_id sender content nid now item hl hso
    rw [send_self_eq s item_id sender content nid now item hl hso]
    exact ⟨rfl, rfl⟩

/-- Witness for C5: in the demo store, alice (the owner of the chair)
attempting to message about her own chair fails with the self-message
error and leaves the store untouched. -/
theorem error_leaves_store_unchanged_witness :
    (send_message_api demo3 "L1" "alice" "re" "C9" 7).2 =
      ⟨false, "You cannot message yourself."⟩ ∧
    (send_message_api demo3 "L1" "alice" "re" "C9" 7).1 = demo3 :=
  (error_leaves_store_unchanged demo3).2.2.2 "L1" "alice" "re" "C9" 7
    demoChair (by decide) rfl

theorem message_roundtrip (m : Message) :
    Message.fromJson (Message.toJson m) = some m := by
  cases m
  rfl

theorem listing_roundtrip (l : Listing) :
    Listing.fromJson (Listing.toJson l) = some l := by
  cases l
  rfl

theorem decodeList_roundtrip {α : Type} (enc : α → Json) (dec : Json → Option α)
    (h : ∀ a, dec (enc a) = some a) (l : List α) :
    decodeList dec (l.map enc) = some l := by
  induction l with
  | nil => rfl
  | cons a l ih => simp [decodeList, h, ih]

theorem decodeDict_roundtrip {α : Type} (enc : α → Json) (dec : Json → Option α)
    (h : ∀ a, dec (enc a) = some a) (l : List (String × α)) :
    decodeDict dec (.obj (l.map (fun p => (p.1, enc p.2)))) = some l := by
  unfold decodeDict
  induction l with
  | nil => rfl
  | cons a l ih => simp_all [decodePairs, h]

theorem conversation_roundtrip (c : Conversation) :
    Conversation.fromJson (Conversation.toJson c) = some c := by
  obtain ⟨i, ii, ps, ms, info⟩ := c
  cases info with
  | none =>
    simp [Conversation.toJson, Conversation.fromJson,
      decodeList_roundtrip Json.str Json.getStr (fun a => rfl),
      decodeList_roundtrip Message.toJson Message.fromJson message_roundtrip]
  | some oi =>
    cases oi with
    | none =>
      simp [Conversation.toJson, Conversation.fromJson,
        decodeList_roundtrip Json.str Json.getStr (fun a => rfl),
        decodeList_roundtrip Message.toJson Message.fromJson message_roundtrip]
    | some L =>
      simp only [Conversation.toJson, Conversation.fromJson, List.cons_append,
        List.nil_append,
        decodeList_roundtrip Json.str Json.getStr (fun a => rfl),
        decodeList_roundtrip Message.toJson Message.fromJson message_roundtrip,
        Option.bind_some, Option.some_bind]
      cases hL : Listing.toJson L with
      | obj kvs =>
        have hdec : Listing.fromJson (Json.obj kvs) = some L := by
          rw [← hL]
          exact listing_roundtrip L
        simp [hdec]
      | null => simp [Listing.toJson] at hL
      | bool b => simp [Listing.toJson] at hL
      | num n => simp [Listing.toJson] at hL
      | str s => simp [Listing.toJson] at hL
      | arr xs => simp [Listing.toJson] at hL

/-- C9: saving the store to the JSON file and loading it back yields the
identical data: the same listings and conversations, with the same ids,
message order and read flags. -/
theorem save_load_roundtrip (d : MarketData) :
    MarketData.fromJson (MarketData.toJson d) = some d ∧
    load_data (some (MarketData.toJson d)) = d := by
  obtain ⟨ls, cs⟩ := d
  have h : MarketData.fromJson (MarketData.toJson ⟨ls, cs⟩) = some ⟨ls, cs⟩ := by
    simp [MarketData.toJson, MarketData.fromJson,
      decodeDict_roundtrip Listing.toJson Listing.fromJson listing_roundtrip,
      decodeDict_roundtrip Conversation.toJson Conversation.fromJson
        conversation_roundtrip]
  exact ⟨h, by simp [load_data, h]⟩

/-- C7: the inbox is ordered descending by the timestamp of each
last message of each conversation — an entry later in the list never has a
larger key than an earlier one — and repeated calls on the same store
return the same list. -/
theorem inbox_sorted_desc (s : MStore) (U : String) :
    (∀ (i j : Nat) (x y : Summary), i < j →
        (get_inbox_api s U)[i]? = some x → (get_inbox_api s U)[j]? = some y →
        summaryKey y ≤ summaryKey x)
  ∧ get_inbox_api s U = get_inbox_api s U := by
  constructor
  · have hs : List.Pairwise (fun a b => summaryKey b ≤ summaryKey a)
        (get_inbox_api s U) := by
      unfold get_inbox_api sortByRecent
      haveI ht : IsTotal Summary (fun a b => summaryKey b ≤ summaryKey a) :=
        ⟨fun a b => le_total _ _⟩
      haveI htr : IsTrans Summary (fun a b => summaryKey b ≤ summaryKey a) :=
        ⟨fun a b c h1 h2 => le_trans h2 h1⟩
      exact List.sorted_insertionSort _ _
    intro i j x y hij hx hy
    rw [List.getElem?_eq_some] at hx hy
    obtain ⟨hi, hxe⟩ := hx
    obtain ⟨hj, hye⟩ := hy
    have := List.pairwise_iff_get.mp hs ⟨i, hi⟩ ⟨j, hj⟩ hij
    rw [List.get_eq_getElem, List.get_eq_getElem] at this
    rw [hxe, hye] at this
    exact this
  · rfl

/-- Witness for C7: in the inbox of bob over the demo store the lamp
conversation (last message at time 5) precedes the chair conversation
(last message at time 1). -/
theorem inbox_sorted_desc_witness :
    summaryKey ⟨"C1", "Chair", some "alice", some msgB, 0⟩ ≤
      summaryKey ⟨"C2", "Lamp", some "carol",
        some ⟨"bob", "lamp please", 5, false⟩, 0⟩ :=
  (inbox_sorted_desc demo4 "bob").1 0 1
    ⟨"C2", "Lamp", some "carol", some ⟨"bob", "lamp please", 5, false⟩, 0⟩
    ⟨"C1", "Chair", some "alice", some msgB, 0⟩
    (by decide) (by decide) (by decide)

theorem validation_cond_iff (d : ItemData) :
    (truthy d.name && truthy d.description && truthy d.price &&
      truthy d.category) = false ↔
    (missingOrEmpty d.name ∨ missingOrEmpty d.description ∨
     missingOrEmpty d.price ∨ missingOrEmpty d.category) := by
  rw [← truthy_eq_false_iff, ← truthy_eq_false_iff, ← truthy_eq_false_iff,
      ← truthy_eq_false_iff]
  cases truthy d.name <;> cases truthy d.description <;>
    cases truthy d.price <;> cases truthy d.category <;> simp

/-- C8: listing creation fails with the validation error exactly when one
of the four required fields is missing or empty; otherwise, for a fresh
generated id, the listing is stored under that id with the given owner,
the store is persisted, and the created listing is returned. -/
theorem create_listing_validation (s : MStore) (d : ItemData) (o lid : String)
    (hfresh : s.data.listings.lookup lid = none) :
    ((create_listing_api s d o lid).2.success = false ↔
      (missingOrEmpty d.name ∨ missingOrEmpty d.description ∨
       missingOrEmpty d.price ∨ missingOrEmpty d.category))
  ∧ (¬(missingOrEmpty d.name ∨ missingOrEmpty d.description ∨
       missingOrEmpty d.price ∨ missingOrEmpty d.category) →
      (create_listing_api s d o lid).1.data.listings =
        s.data.listings ++
          [(lid, ⟨lid, d.name.getD "", d.description.getD "", d.price.getD "",
                  d.category.getD "", o⟩)] ∧
      (create_listing_api s d o lid).1.data.conversations =
        s.data.conversations ∧
      (create_listing_api s d o lid).1.file =
        some (MarketData.toJson (create_listing_api s d o lid).1.data) ∧
      (create_listing_api s d o lid).2 =
        ⟨true, "Listing created successfully!",
         some ⟨lid, d.name.getD "", d.description.getD "", d.price.getD "",
               d.category.getD "", o⟩⟩ ∧
      lid ∉ s.data.listings.map Prod.fst) := by
  constructor
  · cases hv : (truthy d.name && truthy d.description && truthy d.price &&
        truthy d.category) with
    | false =>
      rw [create_fail_eq s d o lid hv]
      simpa using (validation_cond_iff d).mp hv
    | true =>
      rw [create_success_eq s d o lid hv]
      constructor
      · intro hfalse
        exact absurd hfalse (by simp)
      · intro hmiss
        exact absurd ((validation_cond_iff d).mpr hmiss) (by simp [hv])
  · intro hmiss
    have hv : (truthy d.name && truthy d.description && truthy d.price &&
        truthy d.category) = true := by
      cases hv2 : (truthy d.name && truthy d.description && truthy d.price &&
          truthy d.category) with
      | false => exact absurd ((validation_cond_iff d).mp hv2) hmiss
      | true => rfl
    rw [create_success_eq s d o lid hv]
    refine ⟨?_, rfl, rfl, rfl, ?_⟩
    · exact dinsert_of_none hfresh
    · exact (lookup_eq_none_keys s.data.listings lid).mp hfresh

/-- Witness for C8: creating the chair listing on an empty store stores
it under the fresh id and returns it. -/
theorem create_listing_validation_witness :
    (create_listing_api emptyStore itemChair "alice" "L1").1.data.listings =
      emptyStore.data.listings ++ [("L1", demoChair)] ∧
    (create_listing_api emptyStore itemChair "alice" "L1").1.data.conversations =
      emptyStore.data.conversations ∧
    (create_listing_api emptyStore itemChair "alice" "L1").1.file =
      some (MarketData.toJson
        (create_listing_api emptyStore itemChair "alice" "L1").1.data) ∧
    (create_listing_api emptyStore itemChair "alice" "L1").2 =
      ⟨true, "Listing created successfully!", some demoChair⟩ ∧
    "L1" ∉ emptyStore.data.listings.map Prod.fst :=
  (create_listing_validation emptyStore itemChair "alice" "L1" rfl).2 (by decide)

/-- C4: a successful conversation access succeeds, stores the
conversation with read marked exactly on the messages whose sender
differs from the viewer (messages already read keep read = true), and
is idempotent: a second access with no intervening send returns the
same result, leaves the in-memory data unchanged, and the returned
conversation has unread count 0 for the viewer on both calls. -/
theorem getconv_marks_read_idempotent (s : MStore) (cid U : String)
    (c : Conversation) (hc : s.data.conversations.lookup cid = some c)
    (hU : c.participants.contains U = true) :
    ((get_conversation_api s cid U).2.success = true)
  ∧ ((get_conversation_api s cid U).1.data.conversations.lookup cid =
      some { c with messages := markRead U c.messages,
                    item_info := some (s.data.listings.lookup c.item_id) })
  ∧ (∀ (i : Nat) (m : Message), c.messages[i]? = some m →
      (markRead U c.messages)[i]? =
        some (if m.sender ≠ U then { m with read := true } else m))
  ∧ ((get_conversation_api (get_conversation_api s cid U).1 cid U).2 =
      (get_conversation_api s cid U).2)
  ∧ ((get_conversation_api (get_conversation_api s cid U).1 cid U).1.data =
      (get_conversation_api s cid U).1.data)
  ∧ (∀ rc : Conversation,
        (get_conversation_api s cid U).2.conversation = some rc →
        unreadCount U rc.messages = 0) := by
  have h1 := getconv_success_eq s cid U c hc hU
  have hdm : (dmodify s.data.conversations cid
      (fun _ => { c with messages := markRead U c.messages,
                         item_info := some (s.data.listings.lookup c.item_id) })).lookup cid =
      some { c with messages := markRead U c.messages,
                    item_info := some (s.data.listings.lookup c.item_id) } := by
    rw [lookup_dmodify, if_pos rfl, hc]
    rfl
  have hl1 : (get_conversation_api s cid U).1.data.conversations.lookup cid =
      some { c with messages := markRead U c.messages,
                    item_info := some (s.data.listings.lookup c.item_id) } := by
    rw [h1]
    exact hdm
  have h2 := getconv_success_eq (get_conversation_api s cid U).1 cid U _ hl1 hU
  refine ⟨by rw [h1], hl1, ?_, ?_, ?_, ?_⟩
  · intro i m hm
    exact markRead_getElem U c.messages i m hm
  · rw [h2, h1]
    simp only []
    rw [markRead_idem]
  · rw [h2, h1]
    simp only []
    rw [markRead_idem, dmodify_comp]
  · intro rc hrc
    rw [h1] at hrc
    have he := Option.some.inj hrc
    rw [← he]
    exact unreadCount_markRead U c.messages

/-- Witness for C4: alice opening her conversation with bob in the demo
store succeeds and stores the marked conversation. -/
theorem getconv_marks_read_idempotent_witness :
    (get_conversation_api demo4 "C1" "alice").2.success = true ∧
    (get_conversation_api demo4 "C1" "alice").1.data.conversations.lookup "C1" =
      some { demoConvoC1 with
             messages := markRead "alice" demoConvoC1.messages,
             item_info := some
               (demo4.data.listings.lookup demoConvoC1.item_id) } ∧
    (get_conversation_api (get_conversation_api demo4 "C1" "alice").1
        "C1" "alice").1.data =
      (get_conversation_api demo4 "C1" "alice").1.data :=
  let h := getconv_marks_read_idempotent demo4 "C1" "alice" demoConvoC1
    (by decide) (by decide)
  ⟨h.1, h.2.1, h.2.2.2.2.1⟩

/-- C10: a successful conversation access leaves the listings, the other
conversations, and the identity, participants and message metadata of
the accessed conversation unchanged, marks its messages read, and writes
the resolved listing into the stored record under item_info only after
the save of this call — the file written by the call still carries the old
item_info, while the next persist includes the new one. -/
theorem getconv_item_info_persist (s : MStore) (cid U : String)
    (c : Conversation) (hc : s.data.conversations.lookup cid = some c)
    (hU : c.participants.contains U = true) :
    ((get_conversation_api s cid U).1.data.listings = s.data.listings)
  ∧ (∀ k : String, k ≠ cid →
      (get_conversation_api s cid U).1.data.conversations.lookup k =
        s.data.conversations.lookup k)
  ∧ ((get_conversation_api s cid U).1.data.conversations.lookup cid =
      some { c with messages := markRead U c.messages,
                    item_info := some (s.data.listings.lookup c.item_id) })
  ∧ ((markRead U c.messages).map (fun m => (m.sender, m.content, m.timestamp)) =
      c.messages.map (fun m => (m.sender, m.content, m.timestamp)))
  ∧ ((get_conversation_api s cid U).1.file =
      some (MarketData.toJson
        ⟨s.data.listings,
         dmodify s.data.conversations cid
           (fun _ => { c with messages := markRead U c.messages })⟩))
  ∧ ((get_conversation_api (get_conversation_api s cid U).1 cid U).1.file =
      some (MarketData.toJson (get_conversation_api s cid U).1.data)) := by
  have h1 := getconv_success_eq s cid U c hc hU
  have hdm : (dmodify s.data.conversations cid
      (fun _ => { c with messages := markRead U c.messages,
                         item_info := some (s.data.listings.lookup c.item_id) })).lookup cid =
      some { c with messages := markRead U c.messages,
                    item_info := some (s.data.listings.lookup c.item_id) } := by
    rw [lookup_dmodify, if_pos rfl, hc]
    rfl
  have hframe : ∀ k : String, k ≠ cid →
      (dmodify s.data.conversations cid
        (fun _ => { c with messages := markRead U c.messages,
                           item_info := some (s.data.listings.lookup c.item_id) })).lookup k =
      s.data.conversations.lookup k := by
    intro k hk
    rw [lookup_dmodify, if_neg hk]
  have hl1 : (get_conversation_api s cid U).1.data.conversations.lookup cid =
      some { c with messages := markRead U c.messages,
                    item_info := some (s.data.listings.lookup c.item_id) } := by
    rw [h1]
    exact hdm
  have h2 := getconv_success_eq (get_conversation_api s cid U).1 cid U _ hl1 hU
  refine ⟨by rw [h1], ?_, hl1, markRead_preserves_meta U c.messages, by rw [h1], ?_⟩
  · intro k hk
    rw [h1]
    exact hframe k hk
  · rw [h2, h1]
    simp only []
    rw [markRead_idem, dmodify_comp]

/-- Witness for C10: in the demo store, alice opening the chair
conversation leaves the listings unchanged and stores the conversation
with the chair listing under item_info. -/
theorem getconv_item_info_persist_witness :
    (get_conversation_api demo4 "C1" "alice").1.data.listings =
      demo4.data.listings ∧
    (get_conversation_api demo4 "C1" "alice").1.data.conversations.lookup "C1" =
      some { demoConvoC1 with
             messages := markRead "alice" demoConvoC1.messages,
             item_info := some
               (demo4.data.listings.lookup demoConvoC1.item_id) } ∧
    (get_conversation_api demo4 "C1" "alice").1.file =
      some (MarketData.toJson
        ⟨demo4.data.listings,
         dmodify demo4.data.conversations "C1"
           (fun _ => { demoConvoC1 with
                       messages := markRead "alice" demoConvoC1.messages })⟩) :=
  let h := getconv_item_info_persist demo4 "C1" "alice" demoConvoC1
    (by decide) (by decide)
  ⟨h.1, h.2.2.1, h.2.2.2.2.1⟩

theorem mem_inbox_iff (t : MStore) (U : String) (e : Summary) :
    e ∈ get_inbox_api t U ↔
      ∃ p ∈ t.data.conversations.filter (fun p => p.2.participants.contains U),
        e = mkSummary t U p := by
  unfold get_inbox_api sortByRecent
  rw [List.mem_insertionSort]
  constructor
  · intro h
    obtain ⟨p, hp, rfl⟩ := List.mem_map.mp h
    exact ⟨p, hp, rfl⟩
  · rintro ⟨p, hp, rfl⟩
    exact List.mem_map.mpr ⟨p, hp, rfl⟩

/-- C3: the inbox of a user consists of summaries for exactly the
conversations that user participates in, each carrying the unread count
of messages not yet read and not sent by the user; a conversation
holding a single unread message from the other participant shows unread
count 1 before the user opens it and 0 immediately after. -/
theorem inbox_exact_and_unread (s : MStore) (U : String)
    (hnodup : (s.data.conversations.map Prod.fst).Nodup) :
    (∀ e ∈ get_inbox_api s U, ∃ c : Conversation,
        s.data.conversations.lookup e.convo_id = some c ∧
        U ∈ c.participants ∧ e.unread_count = unreadCount U c.messages)
  ∧ (∀ (cid : String) (c : Conversation),
        s.data.conversations.lookup cid = some c → U ∈ c.participants →
        ∃ e ∈ get_inbox_api s U, e.convo_id = cid)
  ∧ (∀ (cid : String) (c : Conversation) (m : Message),
        s.data.conversations.lookup cid = some c → U ∈ c.participants →
        c.messages = [m] → m.sender ≠ U → m.read = false →
        (∃ e ∈ get_inbox_api s U, e.convo_id = cid ∧ e.unread_count = 1)
      ∧ (∀ e ∈ get_inbox_api (get_conversation_api s cid U).1 U,
            e.convo_id = cid → e.unread_count = 0)) := by
  refine ⟨?_, ?_, ?_⟩
  · intro e he
    obtain ⟨p, hpf, rfl⟩ := (mem_inbox_iff s U e).mp he
    obtain ⟨hpl, hpc⟩ := List.mem_filter.mp hpf
    exact ⟨p.2, lookup_of_mem_nodup hnodup hpl, by simpa using hpc, rfl⟩
  · intro cid c hc hU
    have hcb : c.participants.contains U = true := by simpa using hU
    exact ⟨mkSummary s U (cid, c),
      (mem_inbox_iff s U _).mpr
        ⟨(cid, c), List.mem_filter.mpr ⟨lookup_mem hc, hcb⟩, rfl⟩, rfl⟩
  · intro cid c m hc hU hmsg hsender hread
    have hcb : c.participants.contains U = true := by simpa using hU
    constructor
    · refine ⟨mkSummary s U (cid, c),
        (mem_inbox_iff s U _).mpr
          ⟨(cid, c), List.mem_filter.mpr ⟨lookup_mem hc, hcb⟩, rfl⟩, rfl, ?_⟩
      show unreadCount U c.messages = 1
      rw [hmsg]
      simp [unreadCount, hread, beq_eq_false_iff_ne.mpr hsender]
    · intro e he hecid
      have hconv1 : (get_conversation_api s cid U).1.data.conversations =
          dmodify s.data.conversations cid
            (fun _ => { c with messages := markRead U c.messages,
                               item_info := some (s.data.listings.lookup c.item_id) }) := by
        rw [getconv_success_eq s cid U c hc hcb]
      obtain ⟨p, hpf, rfl⟩ := (mem_inbox_iff _ U e).mp he
      obtain ⟨hpl, hpc⟩ := List.mem_filter.mp hpf
      rw [hconv1] at hpl
      obtain ⟨q, hq, hpe⟩ := mem_dmodify hpl
      by_cases hqc : q.1 = cid
      · rw [if_pos hqc] at hpe
        subst hpe
        exact unreadCount_markRead U c.messages
      · rw [if_neg hqc] at hpe
        subst hpe
        exact absurd hecid hqc

/-- Witness for C3: after alice opens the conversation, its inbox entry
has unread count 0. -/
theorem inbox_exact_and_unread_witness :
    (⟨"C1", "Chair", some "bob", some msgA, 0⟩ : Summary).unread_count = 0 :=
  ((inbox_exact_and_unread demo3 "alice" (by decide)).2.2 "C1" demoConvoC1 msgB
      (by decide) (by decide) rfl (by decide) rfl).2
    ⟨"C1", "Chair", some "bob", some msgA, 0⟩ (by decide) rfl

theorem wf_step (s : MStore) (a : Act) (hf : a.freshOK s) (hwf : WF s.data) :
    WF (a.apply s).data := by
  cases a with
  | inbox u => exact hwf
  | create d o lid =>
    show WF (create_listing_api s d o lid).1.data
    cases hv : (truthy d.name && truthy d.description && truthy d.price &&
        truthy d.category) with
    | false =>
      rw [create_fail_eq s d o lid hv]
      exact hwf
    | true =>
      rw [create_success_eq s d o lid hv]
      exact ⟨hwf.1, hwf.2⟩
  | getconv cid u =>
    show WF (get_conversation_api s cid u).1.data
    cases hl : s.data.conversations.lookup cid with
    | none =>
      rw [getconv_notfound_eq s cid u hl]
      exact hwf
    | some c =>
      cases hU : c.participants.contains u with
      | false =>
        rw [getconv_unauth_eq s cid u c hl hU]
        exact hwf
      | true =>
        have hconv : (get_conversation_api s cid u).1.data.conversations =
            dmodify s.data.conversations cid
              (fun _ => { c with messages := markRead u c.messages,
                                 item_info := some (s.data.listings.lookup c.item_id) }) := by
          rw [getconv_success_eq s cid u c hl hU]
        constructor
        · rw [hconv, dmodify_map_fst]
          exact hwf.1
        · intro p hp q hq hitem hparts
          rw [hconv] at hp hq
          obtain ⟨p0, hp0, hpe⟩ := mem_dmodify hp
          obtain ⟨q0, hq0, hqe⟩ := mem_dmodify hq
          have hpmeta : p.1 = p0.1 ∧ p.2.item_id = p0.2.item_id ∧
              p.2.participants = p0.2.participants := by
            by_cases h0 : p0.1 = cid
            · rw [if_pos h0] at hpe
              have : p0.2 = c := by
                have hl0 := lookup_of_mem_nodup hwf.1
                  (show (p0.1, p0.2) ∈ s.data.conversations from hp0)
                rw [h0] at hl0
                rw [hl] at hl0
                exact (Option.some.inj hl0).symm
              rw [hpe, this]
              exact ⟨rfl, rfl, rfl⟩
            · rw [if_neg h0] at hpe
              rw [hpe]
              exact ⟨rfl, rfl, rfl⟩
          have hqmeta : q.1 = q0.1 ∧ q.2.item_id = q0.2.item_id ∧
              q.2.participants = q0.2.participants := by
            by_cases h0 : q0.1 = cid
            · rw [if_pos h0] at hqe
              have : q0.2 = c := by
                have hl0 := lookup_of_mem_nodup hwf.1
                  (show (q0.1, q0.2) ∈ s.data.conversations from hq0)
                rw [h0] at hl0
                rw [hl] at hl0
                exact (Option.some.inj hl0).symm
              rw [hqe, this]
              exact ⟨rfl, rfl, rfl⟩
            · rw [if_neg h0] at hqe
              rw [hqe]
              exact ⟨rfl, rfl, rfl⟩
          rw [hpmeta.1, hqmeta.1]
          apply hwf.2 p0 hp0 q0 hq0
          · rw [← hpmeta.2.1, ← hqmeta.2.1]
            exact hitem
          · intro x
            rw [← hpmeta.2.2, ← hqmeta.2.2]
            exact hparts x
  | send item_id sender content nid now =>
    show WF (send_message_api s item_id sender content nid now).1.data
    cases hl : s.data.listings.lookup item_id with
    | none =>
      rw [send_notfound_eq s item_id sender content nid now hl]
      exact hwf
    | some item =>
      cases hsr : (sender == item.owner) with
      | true =>
        rw [send_self_eq s item_id sender content nid now item hl
          (by simpa using hsr)]
        exact hwf
      | false =>
        cases hfind : s.data.conversations.find?
            (convoMatch item_id sender item.owner) with
        | some pc =>
          have hconv : (send_message_api s item_id sender content nid now).1.data.conversations =
              dmodify s.data.conversations pc.1
                (fun c0 => { c0 with messages :=
                    c0.messages ++ [⟨sender, content, now, false⟩] }) := by
            rw [send_found_eq s item_id sender content nid now item hl hsr
              pc.1 pc.2 (by rw [hfind])]
          constructor
          · rw [hconv, dmodify_map_fst]
            exact hwf.1
          · intro p hp q hq hitem hparts
            rw [hconv] at hp hq
            obtain ⟨p0, hp0, hpe⟩ := mem_dmodify hp
            obtain ⟨q0, hq0, hqe⟩ := mem_dmodify hq
            have hpmeta : p.1 = p0.1 ∧ p.2.item_id = p0.2.item_id ∧
                p.2.participants = p0.2.participants := by
              by_cases h0 : p0.1 = pc.1 <;>
                [rw [if_pos h0] at hpe; rw [if_neg h0] at hpe] <;>
                rw [hpe] <;> exact ⟨rfl, rfl, rfl⟩
            have hqmeta : q.1 = q0.1 ∧ q.2.item_id = q0.2.item_id ∧
                q.2.participants = q0.2.participants := by
              by_cases h0 : q0.1 = pc.1 <;>
                [rw [if_pos h0] at hqe; rw [if_neg h0] at hqe] <;>
                rw [hqe] <;> exact ⟨rfl, rfl, rfl⟩
            rw [hpmeta.1, hqmeta.1]
            apply hwf.2 p0 hp0 q0 hq0
            · rw [← hpmeta.2.1, ← hqmeta.2.1]
              exact hitem
            · intro x
              rw [← hpmeta.2.2, ← hqmeta.2.2]
              exact hparts x
        | none =>
          have hfr : s.data.conversations.lookup nid = none := hf
          have hconv : (send_message_api s item_id sender content nid now).1.data.conversations =
              s.data.conversations ++
                [(nid, ⟨nid, item_id, [sender, item.owner],
                  [⟨sender, content, now, false⟩], none⟩)] := by
            rw [send_new_eq s item_id sender content nid now item hl hsr hfind]
            exact dinsert_of_none hfr
          have hnotmatch := List.find?_eq_none.mp hfind
          constructor
          · rw [hconv, List.map_append]
            rw [List.nodup_append]
            refine ⟨hwf.1, List.nodup_singleton nid, ?_⟩
            intro x hx hx2
            have hxe : x = nid := by simpa using hx2
            rw [hxe] at hx
            exact (lookup_eq_none_keys s.data.conversations nid).mp hfr hx
          · intro p hp q hq hitem hparts
            rw [hconv] at hp hq
            have hnew : ∀ r ∈ s.data.conversations,
                r.2.item_id = item_id →
                sender ∈ r.2.participants → item.owner ∈ r.2.participants →
                False := by
              intro r hr hri hrs hro
              apply hnotmatch r hr
              unfold convoMatch
              simp [hri, hrs, hro]
            rcases List.mem_append.mp hp with hpl | hpn <;>
              rcases List.mem_append.mp hq with hql | hqn
            · exact hwf.2 p hpl q hql hitem hparts
            · have hqv : q = (nid, ⟨nid, item_id, [sender, item.owner],
                  [⟨sender, content, now, false⟩], none⟩) := by simpa using hqn
              exfalso
              apply hnew p hpl
              · rw [hitem, hqv]
              · rw [hqv] at hparts
                exact (hparts sender).mpr (by simp)
              · rw [hqv] at hparts
                exact (hparts item.owner).mpr (by simp)
            · have hpv : p = (nid, ⟨nid, item_id, [sender, item.owner],
                  [⟨sender, content, now, false⟩], none⟩) := by simpa using hpn
              exfalso
              apply hnew q hql
              · rw [← hitem, hpv]
              · rw [hpv] at hparts
                exact (hparts sender).mp (by simp)
              · rw [hpv] at hparts
                exact (hparts item.owner).mp (by simp)
            · have hpv := List.mem_singleton.mp hpn
              have hqv := List.mem_singleton.mp hqn
              rw [hpv, hqv]

theorem reachable_wf (s : MStore) (h : Reachable s) : WF s.data := by
  induction h with
  | init =>
    constructor
    · exact List.nodup_nil
    · intro p hp
      exact absurd hp (by simp [emptyStore])
  | step a hr hfr ih => exact wf_step _ a hfr ih

/-- C2: in every store reachable from the empty store by API calls, at
most one conversation exists per item and unordered participant set:
two stored conversations about the same item with the same participant
set are the same entry, and every operation preserves this. -/
theorem conversation_pair_unique (s : MStore) (h : Reachable s) :
    ∀ p ∈ s.data.conversations, ∀ q ∈ s.data.conversations,
      p.2.item_id = q.2.item_id →
      (∀ x : String, x ∈ p.2.participants ↔ x ∈ q.2.participants) → p = q := by
  have hwf := reachable_wf s h
  intro p hp q hq hitem hparts
  exact entry_unique_of_nodup hwf.1 hp hq (hwf.2 p hp q hq hitem hparts)

/-- Witness for C2: in the reachable demo store the chair conversation
is the unique conversation for its item and participant pair. -/
theorem conversation_pair_unique_witness :
    (("C1", demoConvoC1) : String × Conversation) = ("C1", demoConvoC1) :=
  conversation_pair_unique demo3 reachable_demo3 ("C1", demoConvoC1) (by decide)
    ("C1", demoConvoC1) (by decide) rfl (fun x => Iff.rfl)

/-- C6: across every API step with fresh generated ids, newly created
message positions hold read = false, surviving messages keep their
sender, content and timestamp, a read flag never reverts from true to
false, and the only unread-to-read transition is caused by a
participant other than the message sender opening that conversation. -/
theorem read_flag_lifecycle (s : MStore) (a : Act) (hf : a.freshOK s) :
    NewUnread s.data.conversations (a.apply s).data.conversations ∧
    StepReads s.data.conversations (a.apply s).data.conversations
      (fun cid m1 => ∃ u : String, a = Act.getconv cid u ∧
        (∃ c : Conversation, s.data.conversations.lookup cid = some c ∧
          u ∈ c.participants) ∧ u ≠ m1.sender) := by
  cases a with
  | inbox u => exact ⟨newUnread_refl _, stepReads_refl _ _⟩
  | create d o lid =>
    have hconv : (Act.apply (Act.create d o lid) s).data.conversations =
        s.data.conversations := by
      show (create_listing_api s d o lid).1.data.conversations = _
      cases hv : (truthy d.name && truthy d.description && truthy d.price &&
          truthy d.category) with
      | false => rw [create_fail_eq s d o lid hv]
      | true => rw [create_success_eq s d o lid hv]
    rw [hconv]
    exact ⟨newUnread_refl _, stepReads_refl _ _⟩
  | getconv cid0 u =>
    cases hl : s.data.conversations.lookup cid0 with
    | none =>
      have hid : Act.apply (Act.getconv cid0 u) s = s := by
        show (get_conversation_api s cid0 u).1 = s
        rw [getconv_notfound_eq s cid0 u hl]
      rw [hid]
      exact ⟨newUnread_refl _, stepReads_refl _ _⟩
    | some c =>
      cases hU : c.participants.contains u with
      | false =>
        have hid : Act.apply (Act.getconv cid0 u) s = s := by
          show (get_conversation_api s cid0 u).1 = s
          rw [getconv_unauth_eq s cid0 u c hl hU]
        rw [hid]
        exact ⟨newUnread_refl _, stepReads_refl _ _⟩
      | true =>
        have hconv : (Act.apply (Act.getconv cid0 u) s).data.conversations =
            dmodify s.data.conversations cid0
              (fun _ => { c with messages := markRead u c.messages,
                                 item_info := some (s.data.listings.lookup c.item_id) }) := by
          show (get_conversation_api s cid0 u).1.data.conversations = _
          rw [getconv_success_eq s cid0 u c hl hU]
        rw [hconv]
        constructor
        · intro cid c2 hc2 i m2 hm2 hlen
          rw [lookup_dmodify] at hc2
          by_cases hcc : cid = cid0
          · rw [if_pos hcc] at hc2
            rw [hl] at hc2
            have hc2e := Option.some.inj hc2
            have hlen2 : c.messages.length ≤ i := hlen c (by rw [hcc]; exact hl)
            have hm2q : (markRead u c.messages)[i]? = some m2 := by
              rw [← hc2e] at hm2
              exact hm2
            have hnone : (markRead u c.messages)[i]? = none := by
              apply List.getElem?_eq_none
              unfold markRead
              rw [List.length_map]
              exact hlen2
            rw [hnone] at hm2q
            exact Option.noConfusion hm2q
          · rw [if_neg hcc] at hc2
            exact newUnread_refl s.data.conversations cid c2 hc2 i m2 hm2 hlen
        · intro cid c1 c2 h1 h2 i m1 m2 hm1 hm2
          rw [lookup_dmodify] at h2
          by_cases hcc : cid = cid0
          · rw [if_pos hcc] at h2
            rw [hl] at h2
            have hc2e := Option.some.inj h2
            have hc1c : c1 = c := by
              rw [hcc] at h1
              rw [hl] at h1
              exact (Option.some.inj h1).symm
            have hm2q : (markRead u c.messages)[i]? = some m2 := by
              rw [← hc2e] at hm2
              exact hm2
            have hm1q : c.messages[i]? = some m1 := by
              rw [← hc1c]
              exact hm1
            unfold markRead at hm2q
            rw [List.getElem?_map, hm1q] at hm2q
            have hm2e := Option.some.inj hm2q
            cases hs : (m1.sender == u) with
            | true =>
              have hmm : m2 = m1 := by
                rw [← hm2e]
                simp [hs]
              rw [hmm]
              exact same_message_facts m1
            | false =>
              have hmm : m2 = { m1 with read := true } := by
                rw [← hm2e]
                simp [hs]
              rw [hmm]
              refine ⟨rfl, rfl, rfl, fun _ => rfl, fun hf1 ht1 => ?_⟩
              refine ⟨u, by rw [hcc], ⟨c1, h1, ?_⟩, ?_⟩
              · rw [hc1c]
                simpa using hU
              · have : m1.sender ≠ u := by simpa using hs
                exact fun he => this he.symm
          · rw [if_neg hcc] at h2
            rw [h1] at h2
            exact entry_unchanged_facts c1 c2 (Option.some.inj h2).symm i m1 m2 hm1 hm2
  | send item_id sender content nid now =>
    cases hl : s.data.listings.lookup item_id with
    | none =>
      have hid : Act.apply (Act.send item_id sender content nid now) s = s := by
        show (send_message_api s item_id sender content nid now).1 = s
        rw [send_notfound_eq s item_id sender content nid now hl]
      rw [hid]
      exact ⟨newUnread_refl _, stepReads_refl _ _⟩
    | some item =>
      cases hsr : (sender == item.owner) with
      | true =>
        have hid : Act.apply (Act.send item_id sender content nid now) s = s := by
          show (send_message_api s item_id sender content nid now).1 = s
          rw [send_self_eq s item_id sender content nid now item hl
            (by simpa using hsr)]
        rw [hid]
        exact ⟨newUnread_refl _, stepReads_refl _ _⟩
      | false =>
        cases hfind : s.data.conversations.find?
            (convoMatch item_id sender item.owner) with
        | some pc =>
          have hconv : (Act.apply (Act.send item_id sender content nid now)
              s).data.conversations =
              dmodify s.data.conversations pc.1
                (fun c0 => { c0 with messages :=
                    c0.messages ++ [⟨sender, content, now, false⟩] }) := by
            show (send_message_api s item_id sender content nid now).1.data.conversations = _
            rw [send_found_eq s item_id sender content nid now item hl hsr
              pc.1 pc.2 (by rw [hfind])]
          rw [hconv]
          constructor
          · intro cid c2 hc2 i m2 hm2 hlen
            rw [lookup_dmodify] at hc2
            by_cases hcc : cid = pc.1
            · rw [if_pos hcc] at hc2
              cases hl0 : s.data.conversations.lookup pc.1 with
              | none =>
                rw [hl0] at hc2
                exact Option.noConfusion hc2
              | some cc =>
                rw [hl0] at hc2
                have hc2e := Option.some.inj hc2
                have hlen2 : cc.messages.length ≤ i := hlen cc (by rw [hcc]; exact hl0)
                have hm2q : (cc.messages ++ [⟨sender, content, now, false⟩])[i]? =
                    some m2 := by
                  rw [← hc2e] at hm2
                  exact hm2
                rw [List.getElem?_append_right hlen2] at hm2q
                rcases Nat.lt_or_ge (i - cc.messages.length) 1 with hlt | hge
                · rw [Nat.lt_one_iff.mp hlt] at hm2q
                  have := Option.some.inj hm2q
                  rw [← this]
                  rfl
                · rw [List.getElem?_eq_none (by simpa using hge)] at hm2q
                  exact Option.noConfusion hm2q
            · rw [if_neg hcc] at hc2
              exact newUnread_refl s.data.conversations cid c2 hc2 i m2 hm2 hlen
          · intro cid c1 c2 h1 h2 i m1 m2 hm1 hm2
            rw [lookup_dmodify] at h2
            by_cases hcc : cid = pc.1
            · rw [if_pos hcc] at h2
              rw [hcc] at h1
              rw [h1] at h2
              have hc2e := Option.some.inj h2
              have hm2q : (c1.messages ++ [⟨sender, content, now, false⟩])[i]? =
                  some m2 := by
                rw [← hc2e] at hm2
                exact hm2
              obtain ⟨hi, _⟩ := List.getElem?_eq_some.mp hm1
              rw [List.getElem?_append_left hi] at hm2q
              rw [hm1] at hm2q
              have := Option.some.inj hm2q
              rw [← this]
              exact same_message_facts m1
            · rw [if_neg hcc] at h2
              rw [h1] at h2
              exact entry_unchanged_facts c1 c2 (Option.some.inj h2).symm i m1 m2 hm1 hm2
        | none =>
          have hfr : s.data.conversations.lookup nid = none := hf
          have hconv : (Act.apply (Act.send item_id sender content nid now)
              s).data.conversations =
              s.data.conversations ++
                [(nid, ⟨nid, item_id, [sender, item.owner],
                  [⟨sender, content, now, false⟩], none⟩)] := by
            show (send_message_api s item_id sender content nid now).1.data.conversations = _
            rw [send_new_eq s item_id sender content nid now item hl hsr hfind]
            exact dinsert_of_none hfr
          rw [hconv]
          constructor
          · intro cid c2 hc2 i m2 hm2 hlen
            by_cases hcc : cid = nid
            · rw [hcc] at hc2
              rw [lookup_append_single_self _ _ _ hfr] at hc2
              have hc2e := Option.some.inj hc2
              have hm2q : ([⟨sender, content, now, false⟩] :
                  List Message)[i]? = some m2 := by
                rw [← hc2e] at hm2
                exact hm2
              cases i with
              | zero =>
                have := Option.some.inj hm2q
                rw [← this]
                rfl
              | succ n =>
                rw [List.getElem?_eq_none (by simp)] at hm2q
                exact Option.noConfusion hm2q
            · rw [lookup_append_single_ne _ _ _ _ hcc] at hc2
              exact newUnread_refl s.data.conversations cid c2 hc2 i m2 hm2 hlen
          · intro cid c1 c2 h1 h2 i m1 m2 hm1 hm2
            by_cases hcc : cid = nid
            · rw [hcc] at h1
              rw [hfr] at h1
              exact Option.noConfusion h1
            · rw [lookup_append_single_ne _ _ _ _ hcc] at h2
              rw [h1] at h2
              exact entry_unchanged_facts c1 c2 (Option.some.inj h2).symm i m1 m2 hm1 hm2

/-- Witness for C6: across alice opening the chair conversation in the
demo store, the message keeps its sender, content and timestamp and the
read flag does not revert. -/
theorem read_flag_lifecycle_witness :
    msgA.sender = msgB.sender ∧ msgA.content = msgB.content ∧
    msgA.timestamp = msgB.timestamp ∧ (msgB.read = true → msgA.read = true) :=
  let h := (read_flag_lifecycle demo4 (.getconv "C1" "alice") trivial).2
    "C1" demoConvoC1 demoConvoC1read (by decide) (by decide) 0 msgB msgA
    (by decide) (by decide)
  ⟨h.1, h.2.1, h.2.2.1, h.2.2.2.1⟩

/-- Counterexample to C1 as stated: in a store holding the chair listing
owned by alice, the first message from bob succeeds and creates exactly one
conversation for the item and pair, but the subsequent send from alice
(the owner R) about the same item does not return success — it fails
with the self-message error, because the recipient is always the
listing owner. -/
theorem owner_reply_counterexample :
    demo2.data.listings.lookup "L1" = some demoChair ∧
    demoChair.owner = "alice" ∧
    ("bob" : String) ≠ "alice" ∧
    (send_message_api demo2 "L1" "bob" "interested" "C1" 1).2.success = true ∧
    demo3.data.conversations.countP (convoMatch "L1" "bob" "alice") = 1 ∧
    (send_message_api demo3 "L1" "alice" "re" "C9" 9).2 =
      ⟨false, "You cannot message yourself."⟩ := by
  decide

/-- C1 amended: for a stored listing with owner R and a user S other
than R, the first send from S succeeds and creates exactly one
conversation for the item and pair; a subsequent send from R about the
same item fails with the self-message error and leaves the store
unchanged (the recipient is always the listing owner, so the owner
cannot send); a subsequent send from S succeeds, appends to that same
conversation, and leaves the number of conversations unchanged. -/
theorem first_send_dedup_owner_cannot_reply (s : MStore)
    (itemId S content content2 nid nid2 : String) (now now2 : Nat) (A : Listing)
    (hA : s.data.listings.lookup itemId = some A)
    (hSR : (S == A.owner) = false)
    (hnone : s.data.conversations.find? (convoMatch itemId S A.owner) = none)
    (hfresh : s.data.conversations.lookup nid = none) :
    ((send_message_api s itemId S content nid now).2.success = true)
  ∧ ((send_message_api s itemId S content nid now).1.data.conversations.countP
      (convoMatch itemId S A.owner) = 1)
  ∧ (send_message_api (send_message_api s itemId S content nid now).1 itemId
      A.owner content2 nid2 now2 =
      ((send_message_api s itemId S content nid now).1,
       ⟨false, "You cannot message yourself."⟩))
  ∧ ((send_message_api (send_message_api s itemId S content nid now).1 itemId S
      content2 nid2 now2).2.success = true)
  ∧ ((send_message_api (send_message_api s itemId S content nid now).1 itemId S
      content2 nid2 now2).1.data.conversations.lookup nid =
      some ⟨nid, itemId, [S, A.owner],
        [⟨S, content, now, false⟩, ⟨S, content2, now2, false⟩], none⟩)
  ∧ ((send_message_api (send_message_api s itemId S content nid now).1 itemId S
      content2 nid2 now2).1.data.conversations.length =
      (send_message_api s itemId S content nid now).1.data.conversations.length) := by
  have h1 := send_new_eq s itemId S content nid now A hA hSR hnone
  have hconv1 : (send_message_api s itemId S content nid now).1.data.conversations =
      s.data.conversations ++
        [(nid, ⟨nid, itemId, [S, A.owner], [⟨S, content, now, false⟩], none⟩)] := by
    rw [h1]
    exact dinsert_of_none hfresh
  have hlist1 : (send_message_api s itemId S content nid now).1.data.listings =
      s.data.listings := by
    rw [h1]
  have hmatch : convoMatch itemId S A.owner
      (nid, ⟨nid, itemId, [S, A.owner], [⟨S, content, now, false⟩], none⟩) = true := by
    simp [convoMatch]
  have hA1 : (send_message_api s itemId S content nid now).1.data.listings.lookup
      itemId = some A := by
    rw [hlist1]
    exact hA
  have hfind2 : (send_message_api s itemId S content nid
      now).1.data.conversations.find? (convoMatch itemId S A.owner) =
      some (nid, ⟨nid, itemId, [S, A.owner], [⟨S, content, now, false⟩], none⟩) := by
    rw [hconv1, List.find?_append, hnone]
    simp [List.find?_cons, hmatch]
  have h2 := send_found_eq (send_message_api s itemId S content nid now).1 itemId S
    content2 nid2 now2 A hA1 hSR nid
    ⟨nid, itemId, [S, A.owner], [⟨S, content, now, false⟩], none⟩ hfind2
  have hconv2 : (send_message_api (send_message_api s itemId S content nid now).1
      itemId S content2 nid2 now2).1.data.conversations =
      dmodify (send_message_api s itemId S content nid now).1.data.conversations nid
        (fun c0 => { c0 with messages :=
            c0.messages ++ [⟨S, content2, now2, false⟩] }) := by
    rw [h2]
  refine ⟨by rw [h1], ?_, ?_, by rw [h2], ?_, ?_⟩
  · rw [hconv1, List.countP_append]
    have hzero : s.data.conversations.countP (convoMatch itemId S A.owner) = 0 :=
      List.countP_eq_zero.mpr (List.find?_eq_none.mp hnone)
    rw [hzero]
    simp [List.countP_cons, hmatch]
  · exact send_self_eq (send_message_api s itemId S content nid now).1 itemId
      A.owner content2 nid2 now2 A hA1 rfl
  · rw [hconv2, lookup_dmodify, if_pos rfl]
    rw [hconv1, lookup_append_single_self _ _ _ hfresh]
    rfl
  · rw [hconv2]
    unfold dmodify
    rw [List.length_map]

/-- Witness for the amended C1: the first message from bob about the chair
creates the single matching conversation and alice cannot reply through
the send operation. -/
theorem first_send_dedup_owner_cannot_reply_witness :
    (send_message_api demo2 "L1" "bob" "interested" "C1" 1).1.data.conversations.countP
      (convoMatch "L1" "bob" demoChair.owner) = 1 ∧
    send_message_api (send_message_api demo2 "L1" "bob" "interested" "C1" 1).1 "L1"
      demoChair.owner "more" "C9" 9 =
      ((send_message_api demo2 "L1" "bob" "interested" "C1" 1).1,
       ⟨false, "You cannot message yourself."⟩) :=
  let h := first_send_dedup_owner_cannot_reply demo2 "L1" "bob" "interested" "more"
    "C1" "C9" 1 9 demoChair (by decide) (by decide) rfl rfl
  ⟨h.2.1, h.2.2.1⟩

end Marketplace
